import Mathlib

/-!
Shallow embedding of the liquidation engine for leveraged perpetual-futures
positions.  Rust `f64` quantities are modelled as rationals, `u64` timestamps
as naturals, `i64` timestamps as integers, `Pubkey` as a natural number, and
fallible operations as `Except`.  Each definition mirrors one function of the
Rust source; the theorems at the end settle the spec claims.
-/

namespace LiquidationSpec

/-- Ledger account identifier, modelled as a natural number. -/
abbrev Pubkey := Nat

/-- Error taxonomy of the engine (src/engine/src/error.rs, `LiquidationError`). -/
inductive LiquidationError where
  | RpcError (msg : String)
  | ProgramError (msg : String)
  | OracleError (msg : String)
  | StalePrice (symbol : String)
  | LowConfidencePrice (symbol : String)
  | HighConfidenceInterval (symbol : String)
  | PositionNotLiquidatable (address : Pubkey)
  | LiquidationFailed (msg : String)
  | SimulationFailed (msg : String)
  | ConfirmationTimeout
  | ConfigError (msg : String)
  | Other (msg : String)
deriving DecidableEq

/-- Outcome record of a liquidation (src/engine/src/types.rs, `LiquidationResult`). -/
inductive LiquidationResult where
  | Success (position : Pubkey) (amount : ℚ) (signature : String)
  | Failure (position : Pubkey) (error : String) (attempts : Nat)
  | Skipped (position : Pubkey) (reason : String)
deriving DecidableEq

/-- A trading position (src/engine/src/position.rs, `Position`). -/
structure Position where
  address : Pubkey
  owner : Pubkey
  symbol : String
  size : ℚ
  entry_price : ℚ
  margin : ℚ
  is_long : Bool
  last_liquidated : Option Int
deriving DecidableEq

namespace Position

/-- Current value of the position (`Position::value`). -/
def value (p : Position) (current_price : ℚ) : ℚ :=
  p.size * current_price

/-- Unrealized profit and loss (`Position::unrealized_pnl`). -/
def unrealized_pnl (p : Position) (current_price : ℚ) : ℚ :=
  let price_diff :=
    if p.is_long then current_price - p.entry_price
    else p.entry_price - current_price
  p.size * price_diff

/-- Margin ratio, 0 when the position value is 0 (`Position::margin_ratio`). -/
def margin_ratio (p : Position) (current_price : ℚ) : ℚ :=
  let position_value := p.value current_price
  if position_value = 0 then 0
  else (p.margin + p.unrealized_pnl current_price) / position_value

/-- Leverage; only the case `value == 0` is guarded (`Position::leverage`). -/
def leverage (p : Position) (current_price : ℚ) : ℚ :=
  let position_value := p.value current_price
  if position_value = 0 then 0
  else position_value / (p.margin + max (p.unrealized_pnl current_price) 0)

/-- Maintenance margin requirement (`Position::calculate_maintenance_margin`):
base 0.5 percent plus up to 0.1 percent scaling with size. -/
def calculate_maintenance_margin (p : Position) : ℚ :=
  let size_factor := min (p.size / 1000000) 1
  let size_impact := (1 / 1000) * size_factor
  5 / 1000 + size_impact

/-- Liquidatability against the internally computed maintenance margin
(`Position::is_liquidatable`). -/
def is_liquidatable (p : Position) (current_price : ℚ) : Bool :=
  decide (p.margin_ratio current_price < p.calculate_maintenance_margin)

/-- Under-collateralization against a supplied maintenance margin
(`Position::is_undercollateralized`). -/
def is_undercollateralized (p : Position) (current_price : ℚ)
    (maintenance_margin : ℚ) : Bool :=
  decide (p.margin_ratio current_price < maintenance_margin)

/-- Liquidation price (`Position::liquidation_price`). -/
def liquidation_price (p : Position) : ℚ :=
  if p.size = 0 then 0
  else
    let maintenance_margin := p.calculate_maintenance_margin
    if p.is_long then
      p.entry_price * (1 - 1 / p.leverage p.entry_price + maintenance_margin)
    else
      p.entry_price * (1 + 1 / p.leverage p.entry_price - maintenance_margin)

end Position

/-- Oracle price-gate configuration (src/engine/src/oracle.rs, `OracleConfig`). -/
structure OracleConfig where
  max_price_age_secs : Nat
  min_confidence_interval : ℚ
  max_confidence_interval : ℚ
  use_mainnet : Bool
deriving DecidableEq

namespace OracleConfig

/-- Default oracle configuration (`impl Default for OracleConfig`). -/
def default : OracleConfig :=
  { max_price_age_secs := 30
    min_confidence_interval := 1 / 1000
    max_confidence_interval := 1 / 100
    use_mainnet := false }

end OracleConfig

namespace PythOracle

/-- Price gate of `PythOracle::get_price`, applied to an already parsed oracle
reading: scaled price and confidence, the reading timestamp and the current
time (both u64 seconds).  Nat subtraction matches Rust `saturating_sub`. -/
def get_price (config : OracleConfig) (symbol : String) (price confidence : ℚ)
    (timestamp current_time : Nat) : Except LiquidationError ℚ :=
  if current_time - timestamp > config.max_price_age_secs then
    .error (.StalePrice symbol)
  else
    let confidence_ratio := confidence / price
    if confidence_ratio < config.min_confidence_interval then
      .error (.LowConfidencePrice symbol)
    else if confidence_ratio > config.max_confidence_interval then
      .error (.HighConfidenceInterval symbol)
    else
      .ok price

end PythOracle

namespace OracleProvider

/-- Loop body of the default `OracleProvider::get_prices`: insert prices one
symbol at a time, propagating the first error.  The hash map is modelled as a
function to optional prices. -/
def get_prices_go (gp : String → Except LiquidationError ℚ) :
    List String → (String → Option ℚ) →
    Except LiquidationError (String → Option ℚ)
  | [], prices => .ok prices
  | s :: rest, prices =>
    match gp s with
    | .error e => .error e
    | .ok price =>
      get_prices_go gp rest (fun k => if k = s then some price else prices k)

/-- Default implementation of `OracleProvider::get_prices`. -/
def get_prices (gp : String → Except LiquidationError ℚ)
    (symbols : List String) : Except LiquidationError (String → Option ℚ) :=
  get_prices_go gp symbols (fun _ => none)

end OracleProvider

/-- Rust `as u64` cast of an i64 timestamp: reduction modulo 2 to the 64. -/
def u64ofInt (t : Int) : Nat :=
  (t % (2 ^ 64 : Int)).toNat

/-- Trace of one `check_position` evaluation: whether an oracle price was
fetched, whether a liquidation was attempted, and the returned result. -/
structure CheckTrace where
  fetched : Bool
  attempted : Bool
  result : Except LiquidationError Unit

namespace Types

/-- Engine configuration of src/engine/src/types.rs (`LiquidationConfig`). -/
structure LiquidationConfig where
  check_interval_ms : Nat
  liquidation_cooldown_secs : Nat
  max_batch_size : Nat
  max_concurrent_liquidations : Nat
  max_retries : Nat
  retry_delay_ms : Nat
  enablePartialLiquidations : Bool
  max_liquidation_percent : Nat
  min_position_size : ℚ
  max_position_size : ℚ
  dry_run : Bool
  whitelisted_symbols : List String
  blacklisted_symbols : List String
  max_slippage_bps : Nat
  priority_fee_micro_lamports : Nat
  maintenance_margin : ℚ
  min_liquidation_interval_secs : Nat
  max_confidence_interval : Nat
  use_mainnet : Bool

/-- Default engine configuration (`impl Default for LiquidationConfig` in
src/engine/src/types.rs). -/
def LiquidationConfig.default : LiquidationConfig :=
  { check_interval_ms := 1000
    liquidation_cooldown_secs := 300
    max_batch_size := 100
    max_concurrent_liquidations := 10
    max_retries := 3
    retry_delay_ms := 1000
    enablePartialLiquidations := true
    max_liquidation_percent := 50
    min_position_size := 1 / 1000
    max_position_size := 1000
    dry_run := true
    whitelisted_symbols := ["BTC/USD", "ETH/USD"]
    blacklisted_symbols := []
    max_slippage_bps := 50
    priority_fee_micro_lamports := 1000
    maintenance_margin := 5 / 100
    min_liquidation_interval_secs := 300
    max_confidence_interval := 60
    use_mainnet := false }

end Types

namespace Liq

/-- Liquidation execution of src/engine/src/liquidation.rs
(`LiquidationEngine::liquidate_position`): the body is a logging stub that
unconditionally reports success; it reads neither the configuration (in
particular not `dry_run`, `max_retries` or `retry_delay_ms`) nor the price. -/
def liquidate_position (_config : Types.LiquidationConfig) (_position : Position)
    (_price : ℚ) : Except LiquidationError Unit :=
  .ok ()

/-- Single-position check of src/engine/src/liquidation.rs
(`LiquidationEngine::check_position`): skip inside the per-position cooldown
window (u64 saturating subtraction after an `as u64` cast), otherwise fetch a
price, test under-collateralization against `config.maintenance_margin` and
liquidate if needed.  This engine never writes back to the registry. -/
def check_position (config : Types.LiquidationConfig)
    (oracle : String → Except LiquidationError ℚ) (now : Nat)
    (position : Position) : CheckTrace :=
  let cooled :=
    match position.last_liquidated with
    | some t => decide (now - u64ofInt t < config.min_liquidation_interval_secs)
    | none => false
  if cooled then ⟨false, false, .ok ()⟩
  else
    match oracle position.symbol with
    | .error e => ⟨true, false, .error e⟩
    | .ok price =>
      if position.is_undercollateralized price config.maintenance_margin then
        match liquidate_position config position price with
        | .error e => ⟨true, true, .error e⟩
        | .ok _ => ⟨true, true, .ok ()⟩
      else ⟨true, false, .ok ()⟩

end Liq

namespace Lib

/-- Engine configuration of src/engine/src/lib.rs (`LiquidationConfig`);
its cooldown is an i64 number of seconds. -/
structure LiquidationConfig where
  check_interval_secs : Nat
  liquidation_cooldown_secs : Int
  max_batch_size : Nat
  max_concurrent_liquidations : Nat

/-- The monitored-position registry: a map from addresses to positions,
modelled as an association list (src/engine/src/lib.rs, `positions`). -/
abbrev Registry := List (Pubkey × Position)

/-- Effect of `positions.get_mut(&address)` followed by setting
`last_liquidated`: update the matching entry, leave everything else alone. -/
def updateLastLiquidated (reg : Registry) (address : Pubkey) (t : Int) :
    Registry :=
  reg.map fun kv =>
    if kv.1 = address then (kv.1, { kv.2 with last_liquidated := some t }) else kv

/-- Liquidation execution of src/engine/src/lib.rs
(`LiquidationEngine::liquidate_position`): a stub that logs, sleeps and
unconditionally reports success; no submission, no retries. -/
def liquidate_position (_position : Position) (_price : ℚ) :
    Except LiquidationError Unit :=
  .ok ()

/-- Cooldown gate at the top of `check_position` in src/engine/src/lib.rs:
a position with `last_liquidated == Some(t)` is skipped while
`now - t < liquidation_cooldown_secs` (i64 arithmetic). -/
def in_cooldown (config : LiquidationConfig) (now : Int) (position : Position) :
    Bool :=
  match position.last_liquidated with
  | some t => decide (now - t < config.liquidation_cooldown_secs)
  | none => false

/-- Body of `check_position` (src/engine/src/lib.rs) after the cooldown gate:
fetch a price, test `is_liquidatable`, run the liquidation, and on success
record `last_liquidated` in the registry.  The external liquidation call is a
parameter so that both its success and its failure path are covered. -/
def check_position_body (oracle : String → Except LiquidationError ℚ)
    (liquidate : Position → ℚ → Except LiquidationError Unit)
    (record_time : Int) (reg : Registry) (position : Position) :
    CheckTrace × Registry :=
  match oracle position.symbol with
  | .error e => (⟨true, false, .error e⟩, reg)
  | .ok price =>
    if position.is_liquidatable price then
      match liquidate position price with
      | .error e => (⟨true, true, .error e⟩, reg)
      | .ok _ =>
        (⟨true, true, .ok ()⟩,
          updateLastLiquidated reg position.address record_time)
    else (⟨true, false, .ok ()⟩, reg)

/-- Single-position check of src/engine/src/lib.rs
(`LiquidationEngine::check_position`). -/
def check_position (config : LiquidationConfig)
    (oracle : String → Except LiquidationError ℚ)
    (liquidate : Position → ℚ → Except LiquidationError Unit)
    (now record_time : Int) (reg : Registry) (position : Position) :
    CheckTrace × Registry :=
  match position.last_liquidated with
  | some t =>
    if now - t < config.liquidation_cooldown_secs then (⟨false, false, .ok ()⟩, reg)
    else check_position_body oracle liquidate record_time reg position
  | none => check_position_body oracle liquidate record_time reg position

/-- Whole-snapshot sweep of src/engine/src/lib.rs
(`LiquidationEngine::check_positions`): every snapshot position is checked in
turn; per-position errors are recorded in the trace and do not stop the sweep. -/
def check_positions (config : LiquidationConfig)
    (oracle : String → Except LiquidationError ℚ)
    (liquidate : Position → ℚ → Except LiquidationError Unit)
    (now record_time : Int) :
    Registry → List Position → List CheckTrace × Registry
  | reg, [] => ([], reg)
  | reg, position :: rest =>
    let r1 := check_position config oracle liquidate now record_time reg position
    let r2 := check_positions config oracle liquidate now record_time r1.2 rest
    (r1.1 :: r2.1, r2.2)

end Lib

/-- Zero-size (hence zero-value) position, as left behind by a full close. -/
def positionZero : Position :=
  { address := 1, owner := 2, symbol := "BTC/USD", size := 0,
    entry_price := 60000, margin := 0, is_long := true, last_liquidated := none }

/-- Long position at 200 times leverage: entry 1000 with margin 5. -/
def positionHighLev : Position :=
  { address := 3, owner := 4, symbol := "BTC/USD", size := 1,
    entry_price := 1000, margin := 5, is_long := true, last_liquidated := none }

/-- Long position at 10 times leverage: entry 60000 with margin 6000. -/
def positionTenX : Position :=
  { address := 5, owner := 6, symbol := "BTC/USD", size := 1,
    entry_price := 60000, margin := 6000, is_long := true, last_liquidated := none }

/-- Deeply under-collateralized long position: entry 60000 with margin 100. -/
def positionUnder : Position :=
  { address := 7, owner := 8, symbol := "BTC/USD", size := 1,
    entry_price := 60000, margin := 100, is_long := true, last_liquidated := none }

/-- Zero-margin long position currently at a loss. -/
def positionZeroMargin : Position :=
  { address := 9, owner := 10, symbol := "BTC/USD", size := 1,
    entry_price := 100, margin := 0, is_long := true, last_liquidated := none }

/-- Position liquidated at time 100, still inside a 60-second cooldown at 120. -/
def positionCooled : Position :=
  { address := 11, owner := 12, symbol := "BTC/USD", size := 1,
    entry_price := 60000, margin := 6000, is_long := true,
    last_liquidated := some 100 }

/-- Oracle stub returning 60000 for every symbol. -/
def oracleW60 : String → Except LiquidationError ℚ :=
  fun _ => .ok 60000

/-- Oracle stub returning 50000 for every symbol. -/
def oracleW50 : String → Except LiquidationError ℚ :=
  fun _ => .ok 50000

/-- External liquidation call that always times out. -/
def liquidateFailW : Position → ℚ → Except LiquidationError Unit :=
  fun _ _ => .error .ConfirmationTimeout

/-- Concrete configuration for the lib.rs engine with a 60-second cooldown. -/
def configLibW : Lib.LiquidationConfig :=
  { check_interval_secs := 1, liquidation_cooldown_secs := 60,
    max_batch_size := 100, max_concurrent_liquidations := 10 }

/-- Price source knowing only the BTC/USD symbol. -/
def gpW : String → Except LiquidationError ℚ :=
  fun s => if s = "BTC/USD" then .ok 50000 else .error (.OracleError s)

/-- Claim C1 fails on the code: the zero-size position `positionZero` has zero
value and margin ratio 0 at price 50000, yet `is_liquidatable` returns true
(its maintenance margin 0.005 is positive) and `is_undercollateralized` with
the positive maintenance margin 0.01 returns true as well, contradicting the
claim that such a position is never liquidatable. -/
theorem c1_counterexample :
    positionZero.value 50000 = 0
    ∧ positionZero.margin_ratio 50000 = 0
    ∧ positionZero.is_liquidatable 50000 = true
    ∧ positionZero.is_undercollateralized 50000 (1 / 100) = true := by
  refine ⟨?_, ?_, ?_, ?_⟩ <;>
    norm_num [positionZero, Position.value, Position.margin_ratio,
      Position.unrealized_pnl, Position.is_liquidatable,
      Position.is_undercollateralized, Position.calculate_maintenance_margin]

/-- Claim C1 (amended): for every position whose value at the current price is
zero, `margin_ratio` returns 0; consequently the position is flagged as
liquidatable rather than never liquidatable: `is_undercollateralized` returns
true for every positive maintenance margin, and `is_liquidatable` returns true
whenever the position size is nonnegative (which makes the computed
maintenance margin positive). -/
theorem c1_amended_zero_value (p : Position) (price : ℚ)
    (h : p.value price = 0) :
    p.margin_ratio price = 0
    ∧ (∀ m : ℚ, 0 < m → p.is_undercollateralized price m = true)
    ∧ (0 ≤ p.size → p.is_liquidatable price = true) := by
  have hr : p.margin_ratio price = 0 := by
    simp [Position.margin_ratio, h]
  refine ⟨hr, ?_, ?_⟩
  · intro m hm
    simp [Position.is_undercollateralized, hr, hm]
  · intro hs
    have h1 : (0 : ℚ) ≤ p.size / 1000000 := by positivity
    have h2 : (0 : ℚ) ≤ min (p.size / 1000000) 1 := le_min h1 (by norm_num)
    have hmm : 0 < p.calculate_maintenance_margin := by
      unfold Position.calculate_maintenance_margin
      nlinarith
    simp [Position.is_liquidatable, hr, hmm]

/-- Witness for the amended claim C1 at the zero-size position and price 50000. -/
theorem c1_witness :
    positionZero.value 50000 = 0
    ∧ (positionZero.margin_ratio 50000 = 0
       ∧ (∀ m : ℚ, 0 < m → positionZero.is_undercollateralized 50000 m = true)
       ∧ (0 ≤ positionZero.size → positionZero.is_liquidatable 50000 = true)) :=
  ⟨by norm_num [positionZero, Position.value],
    c1_amended_zero_value positionZero 50000
      (by norm_num [positionZero, Position.value])⟩

/-- Claim C3: whenever `margin_ratio(price)` is at least the maintenance
margin, `is_undercollateralized` returns false, and the liquidation.rs
`check_position` run with that maintenance margin and an oracle returning that
price never attempts a liquidation. -/
theorem c3_margin_ratio_ge_no_liquidation (p : Position) (price mm : ℚ)
    (h : mm ≤ p.margin_ratio price) :
    p.is_undercollateralized price mm = false
    ∧ ∀ (config : Types.LiquidationConfig)
        (oracle : String → Except LiquidationError ℚ) (now : Nat),
        config.maintenance_margin = mm → oracle p.symbol = .ok price →
        (Liq.check_position config oracle now p).attempted = false := by
  have hu : p.is_undercollateralized price mm = false := by
    simp [Position.is_undercollateralized, not_lt.mpr h]
  refine ⟨hu, ?_⟩
  intro config oracle now hcfg ho
  rcases hll : p.last_liquidated with _ | t
  · simp [Liq.check_position, hll, ho, hcfg, hu]
  · by_cases hc : now - u64ofInt t < config.min_liquidation_interval_secs
    · simp [Liq.check_position, hll, hc]
    · simp [Liq.check_position, hll, hc, ho, hcfg, hu]

/-- Witness for C3: the healthy 10x position at its entry price 60000 with a
1 percent maintenance margin. -/
theorem c3_witness :
    (1 / 100 : ℚ) ≤ positionTenX.margin_ratio 60000
    ∧ (positionTenX.is_undercollateralized 60000 (1 / 100) = false
       ∧ ∀ (config : Types.LiquidationConfig)
           (oracle : String → Except LiquidationError ℚ) (now : Nat),
           config.maintenance_margin = 1 / 100 →
           oracle positionTenX.symbol = .ok 60000 →
           (Liq.check_position config oracle now positionTenX).attempted = false) :=
  ⟨by norm_num [positionTenX, Position.margin_ratio, Position.value,
      Position.unrealized_pnl],
    c3_margin_ratio_ge_no_liquidation positionTenX 60000 (1 / 100)
      (by norm_num [positionTenX, Position.margin_ratio, Position.value,
        Position.unrealized_pnl])⟩

/-- Claim C9: `leverage` guards only `value == 0`; with nonzero value, zero
margin and non-positive unrealized PnL the denominator
`margin + max(unrealized_pnl, 0)` is exactly 0 and the returned value is the
unguarded division by that zero denominator. -/
theorem c9_leverage_unguarded_division (p : Position) (price : ℚ)
    (hv : p.value price ≠ 0) (hm : p.margin = 0)
    (hp : p.unrealized_pnl price ≤ 0) :
    p.margin + max (p.unrealized_pnl price) 0 = 0
    ∧ p.leverage price =
        p.value price / (p.margin + max (p.unrealized_pnl price) 0) := by
  have hmax : max (p.unrealized_pnl price) 0 = 0 := max_eq_right hp
  constructor
  · rw [hm, hmax, add_zero]
  · simp [Position.leverage, hv]

/-- Witness for C9: the zero-margin losing long at price 50. -/
theorem c9_witness :
    (positionZeroMargin.value 50 ≠ 0 ∧ positionZeroMargin.margin = 0
       ∧ positionZeroMargin.unrealized_pnl 50 ≤ 0)
    ∧ (positionZeroMargin.margin + max (positionZeroMargin.unrealized_pnl 50) 0 = 0
       ∧ positionZeroMargin.leverage 50 =
           positionZeroMargin.value 50 /
             (positionZeroMargin.margin + max (positionZeroMargin.unrealized_pnl 50) 0)) :=
  ⟨by norm_num [positionZeroMargin, Position.value, Position.unrealized_pnl],
    c9_leverage_unguarded_division positionZeroMargin 50
      (by norm_num [positionZeroMargin, Position.value])
      (by norm_num [positionZeroMargin])
      (by norm_num [positionZeroMargin, Position.unrealized_pnl])⟩

/-- Claim C4 fails on the code: `positionHighLev` is long with positive
leverage (200 at its entry price), yet its liquidation price is strictly
greater than its entry price, because the maintenance margin (0.005000001)
exceeds the inverse leverage (0.005). -/
theorem c4_counterexample :
    positionHighLev.is_long = true
    ∧ 0 < positionHighLev.leverage positionHighLev.entry_price
    ∧ positionHighLev.entry_price < positionHighLev.liquidation_price := by
  refine ⟨rfl, ?_, ?_⟩ <;>
    norm_num [positionHighLev, Position.leverage, Position.value,
      Position.unrealized_pnl, Position.liquidation_price,
      Position.calculate_maintenance_margin]

/-- Claim C4 (amended): for every position with positive leverage at its entry
price, positive entry price, and leverage times maintenance margin below 1,
`liquidation_price` is strictly below the entry price for a long position and
strictly above it for a short position.  (The counterexample forces the extra
bound: once leverage reaches the inverse maintenance margin the inequalities
reverse.) -/
theorem c4_amended_liquidation_price (p : Position)
    (hL : 0 < p.leverage p.entry_price)
    (he : 0 < p.entry_price)
    (hmm : p.leverage p.entry_price * p.calculate_maintenance_margin < 1) :
    (p.is_long = true → p.liquidation_price < p.entry_price)
    ∧ (p.is_long = false → p.entry_price < p.liquidation_price) := by
  have hsz : ¬ p.size = 0 := by
    intro h0
    have hv : p.value p.entry_price = 0 := by simp [Position.value, h0]
    rw [Position.leverage] at hL
    simp only [hv, if_pos rfl] at hL
    exact absurd hL (lt_irrefl 0)
  have hinv : p.calculate_maintenance_margin < 1 / p.leverage p.entry_price := by
    rw [lt_div_iff₀ hL, mul_comm]
    exact hmm
  constructor
  · intro hlong
    have hed : p.liquidation_price =
        p.entry_price * (1 - 1 / p.leverage p.entry_price +
          p.calculate_maintenance_margin) := by
      simp [Position.liquidation_price, hsz, hlong]
    rw [hed]
    have h1 : 1 - 1 / p.leverage p.entry_price + p.calculate_maintenance_margin < 1 := by
      linarith
    exact mul_lt_of_lt_one_right he h1
  · intro hshort
    have hed : p.liquidation_price =
        p.entry_price * (1 + 1 / p.leverage p.entry_price -
          p.calculate_maintenance_margin) := by
      simp [Position.liquidation_price, hsz, hshort]
    rw [hed]
    have h1 : 1 < 1 + 1 / p.leverage p.entry_price - p.calculate_maintenance_margin := by
      linarith
    exact lt_mul_of_one_lt_right he h1

/-- Witness for the amended claim C4: the 10x long position, with leverage 10,
entry 60000 and leverage times maintenance margin about 0.05. -/
theorem c4_witness :
    (0 < positionTenX.leverage positionTenX.entry_price
      ∧ 0 < positionTenX.entry_price
      ∧ positionTenX.leverage positionTenX.entry_price *
          positionTenX.calculate_maintenance_margin < 1)
    ∧ ((positionTenX.is_long = true →
          positionTenX.liquidation_price < positionTenX.entry_price)
       ∧ (positionTenX.is_long = false →
          positionTenX.entry_price < positionTenX.liquidation_price)) :=
  ⟨by
    refine ⟨?_, ?_, ?_⟩ <;>
      norm_num [positionTenX, Position.leverage, Position.value,
        Position.unrealized_pnl, Position.calculate_maintenance_margin],
    c4_amended_liquidation_price positionTenX
      (by norm_num [positionTenX, Position.leverage, Position.value,
        Position.unrealized_pnl])
      (by norm_num [positionTenX])
      (by norm_num [positionTenX, Position.leverage, Position.value,
        Position.unrealized_pnl, Position.calculate_maintenance_margin])⟩

/-- Claim C2: with a well-formed confidence band, the price gate returns
StalePrice exactly when the saturating age exceeds `max_price_age_secs`
(regardless of the other fields), and otherwise classifies the reading by its
confidence ratio: LowConfidencePrice strictly below the band,
HighConfidenceInterval strictly above it, and the price itself inside it. -/
theorem c2_price_gate (config : OracleConfig) (symbol : String)
    (price confidence : ℚ) (timestamp current_time : Nat)
    (hc : config.min_confidence_interval ≤ config.max_confidence_interval) :
    (PythOracle.get_price config symbol price confidence timestamp current_time
        = .error (.StalePrice symbol)
      ↔ current_time - timestamp > config.max_price_age_secs)
    ∧ (current_time - timestamp ≤ config.max_price_age_secs →
        ((PythOracle.get_price config symbol price confidence timestamp current_time
            = .error (.LowConfidencePrice symbol)
          ↔ confidence / price < config.min_confidence_interval)
         ∧ (PythOracle.get_price config symbol price confidence timestamp current_time
            = .error (.HighConfidenceInterval symbol)
          ↔ config.max_confidence_interval < confidence / price)
         ∧ (PythOracle.get_price config symbol price confidence timestamp current_time
            = .ok price
          ↔ config.min_confidence_interval ≤ confidence / price
            ∧ confidence / price ≤ config.max_confidence_interval))) := by
  by_cases hstale : current_time - timestamp > config.max_price_age_secs
  · refine ⟨⟨fun _ => hstale, fun _ => by simp [PythOracle.get_price, hstale]⟩, ?_⟩
    intro hns
    exact absurd hstale (by omega)
  · have hne : PythOracle.get_price config symbol price confidence timestamp
        current_time ≠ .error (.StalePrice symbol) := by
      by_cases h1 : confidence / price < config.min_confidence_interval <;>
        by_cases h2 : config.max_confidence_interval < confidence / price <;>
        simp [PythOracle.get_price, hstale, h1, h2]
    refine ⟨⟨fun hres => absurd hres hne, fun hgt => absurd hgt hstale⟩,
      fun _ => ⟨?_, ?_, ?_⟩⟩
    · by_cases h1 : confidence / price < config.min_confidence_interval
      · simp [PythOracle.get_price, hstale, h1]
      · by_cases h2 : config.max_confidence_interval < confidence / price <;>
          simp [PythOracle.get_price, hstale, h1, h2]
    · by_cases h1 : confidence / price < config.min_confidence_interval
      · simp only [PythOracle.get_price, if_neg hstale, if_pos h1]
        constructor
        · intro hres
          exact absurd hres (by simp)
        · intro hgt
          exact absurd hgt (by linarith)
      · by_cases h2 : config.max_confidence_interval < confidence / price <;>
          simp [PythOracle.get_price, hstale, h1, h2]
    · by_cases h1 : confidence / price < config.min_confidence_interval
      · simp only [PythOracle.get_price, if_neg hstale, if_pos h1]
        constructor
        · intro hres
          exact absurd hres (by simp)
        · intro hband
          exact absurd h1 (not_lt.mpr hband.1)
      · by_cases h2 : config.max_confidence_interval < confidence / price
        · simp only [PythOracle.get_price, if_neg hstale, if_neg h1, if_pos h2]
          constructor
          · intro hres
            exact absurd hres (by simp)
          · intro hband
            exact absurd h2 (not_lt.mpr hband.2)
        · simp [PythOracle.get_price, hstale, h1, h2, not_lt.mp h1, not_lt.mp h2]

/-- Witness for C2: the default oracle configuration with a fresh BTC/USD
reading whose confidence ratio 0.001 sits exactly on the lower band edge. -/
theorem c2_witness :
    OracleConfig.default.min_confidence_interval ≤
        OracleConfig.default.max_confidence_interval
    ∧ ((PythOracle.get_price OracleConfig.default ("BTC/USD") 50000 50 100 110
          = .error (.StalePrice ("BTC/USD"))
        ↔ 110 - 100 > OracleConfig.default.max_price_age_secs)
       ∧ (110 - 100 ≤ OracleConfig.default.max_price_age_secs →
          ((PythOracle.get_price OracleConfig.default ("BTC/USD") 50000 50 100 110
              = .error (.LowConfidencePrice ("BTC/USD"))
            ↔ (50 : ℚ) / 50000 < OracleConfig.default.min_confidence_interval)
           ∧ (PythOracle.get_price OracleConfig.default ("BTC/USD") 50000 50 100 110
              = .error (.HighConfidenceInterval ("BTC/USD"))
            ↔ OracleConfig.default.max_confidence_interval < (50 : ℚ) / 50000)
           ∧ (PythOracle.get_price OracleConfig.default ("BTC/USD") 50000 50 100 110
              = .ok 50000
            ↔ OracleConfig.default.min_confidence_interval ≤ (50 : ℚ) / 50000
              ∧ (50 : ℚ) / 50000 ≤ OracleConfig.default.max_confidence_interval)))) :=
  ⟨by norm_num [OracleConfig.default],
    c2_price_gate OracleConfig.default ("BTC/USD") 50000 50 100 110
      (by norm_num [OracleConfig.default])⟩

/-- The `get_prices` loop aborts with the error of the first failing symbol:
all earlier symbols succeeded, so their partial results are discarded. -/
theorem get_prices_go_error (gp : String → Except LiquidationError ℚ)
    (s : String) (e : LiquidationError) (hs : gp s = .error e) :
    ∀ (pre rest : List String) (acc : String → Option ℚ),
      (∀ t ∈ pre, ∃ q, gp t = .ok q) →
      OracleProvider.get_prices_go gp (pre ++ s :: rest) acc = .error e := by
  intro pre
  induction pre with
  | nil =>
    intro rest acc _
    simp [OracleProvider.get_prices_go, hs]
  | cons a pre ih =>
    intro rest acc hok
    obtain ⟨q, hq⟩ := hok a (List.mem_cons_self a pre)
    simpa [OracleProvider.get_prices_go, hq] using
      ih rest _ (fun t ht => hok t (List.mem_cons_of_mem a ht))

/-- When every requested symbol succeeds, the `get_prices` loop returns a map
that extends the accumulator exactly on the requested symbols. -/
theorem get_prices_go_ok (gp : String → Except LiquidationError ℚ) :
    ∀ (l : List String) (acc : String → Option ℚ),
      (∀ s ∈ l, ∃ q, gp s = .ok q) →
      ∃ m, OracleProvider.get_prices_go gp l acc = .ok m
        ∧ (∀ k, k ∉ l → m k = acc k)
        ∧ (∀ k q, k ∈ l → gp k = .ok q → m k = some q) := by
  intro l
  induction l with
  | nil =>
    intro acc _
    exact ⟨acc, rfl, fun k _ => rfl, fun k q hk => absurd hk (List.not_mem_nil k)⟩
  | cons s rest ih =>
    intro acc hok
    obtain ⟨p, hp⟩ := hok s (List.mem_cons_self s rest)
    obtain ⟨m, hm, hout, hin⟩ := ih (fun k => if k = s then some p else acc k)
      (fun t ht => hok t (List.mem_cons_of_mem s ht))
    refine ⟨m, ?_, ?_, ?_⟩
    · simpa [OracleProvider.get_prices_go, hp] using hm
    · intro k hk
      have hk1 : ¬ k = s := fun h => hk (h ▸ List.mem_cons_self s rest)
      have hk2 : k ∉ rest := fun h => hk (List.mem_cons_of_mem s h)
      rw [hout k hk2]
      simp [hk1]
    · intro k q hk hq
      rcases List.mem_cons.mp hk with h | h
      · subst h
        have hpq : p = q := by
          rw [hp] at hq
          exact (Except.ok.injEq _ _).mp hq
        by_cases hr : k ∈ rest
        · exact hin k q hr hq
        · rw [hout k hr]
          simp [hpq]
      · exact hin k q h hq

/-- Claim C10: the default `get_prices` is all-or-nothing.  If some symbol
fails, the result is the error of the first failing symbol and no price map is
produced; if all succeed, the returned map holds a price for exactly the
requested symbols, namely the one `get_price` reported. -/
theorem c10_get_prices_all_or_nothing (gp : String → Except LiquidationError ℚ)
    (symbols : List String) :
    (∀ (pre : List String) (s : String) (rest : List String)
        (e : LiquidationError),
        symbols = pre ++ s :: rest → (∀ t ∈ pre, ∃ q, gp t = .ok q) →
        gp s = .error e →
        OracleProvider.get_prices gp symbols = .error e)
    ∧ ((∀ s ∈ symbols, ∃ q, gp s = .ok q) →
        ∃ m, OracleProvider.get_prices gp symbols = .ok m
          ∧ (∀ s, (m s).isSome = true ↔ s ∈ symbols)
          ∧ (∀ s q, s ∈ symbols → gp s = .ok q → m s = some q)) := by
  constructor
  · intro pre s rest e hsym hok hs
    rw [hsym]
    exact get_prices_go_error gp s e hs pre rest _ hok
  · intro hok
    obtain ⟨m, hm, hout, hin⟩ := get_prices_go_ok gp symbols (fun _ => none) hok
    refine ⟨m, hm, ?_, hin⟩
    intro s
    constructor
    · intro hsome
      by_contra hns
      rw [hout s hns] at hsome
      simp at hsome
    · intro hs
      obtain ⟨q, hq⟩ := hok s hs
      rw [hin s q hs hq]
      rfl

/-- Witness for C10: the one-symbol request against the price source `gpW`,
which knows only BTC/USD. -/
theorem c10_witness :
    ∃ m, OracleProvider.get_prices gpW (["BTC/USD"]) = .ok m
      ∧ (∀ s, (m s).isSome = true ↔ s ∈ (["BTC/USD"] : List String))
      ∧ (∀ s q, s ∈ (["BTC/USD"] : List String) → gpW s = .ok q →
          m s = some q) :=
  (c10_get_prices_all_or_nothing gpW (["BTC/USD"])).2
    (by
      intro s hs
      simp only [List.mem_singleton] at hs
      subst hs
      exact ⟨50000, by simp [gpW]⟩)

/-- The trace of a single `check_position` (fetched / attempted / result)
depends only on the snapshot position, never on the registry state. -/
theorem check_position_body_trace_indep
    (oracle : String → Except LiquidationError ℚ)
    (liquidate : Position → ℚ → Except LiquidationError Unit)
    (record_time : Int) (reg reg' : Lib.Registry) (p : Position) :
    (Lib.check_position_body oracle liquidate record_time reg p).1
      = (Lib.check_position_body oracle liquidate record_time reg' p).1 := by
  unfold Lib.check_position_body
  cases ho : oracle p.symbol with
  | error e => rfl
  | ok price =>
    by_cases hl : p.is_liquidatable price
    · simp only [hl, if_true]
      cases hliq : liquidate p price <;> rfl
    · simp [hl]

/-- Registry independence of the full single-position check. -/
theorem check_position_trace_indep (config : Lib.LiquidationConfig)
    (oracle : String → Except LiquidationError ℚ)
    (liquidate : Position → ℚ → Except LiquidationError Unit)
    (now record_time : Int) (reg reg' : Lib.Registry) (p : Position) :
    (Lib.check_position config oracle liquidate now record_time reg p).1
      = (Lib.check_position config oracle liquidate now record_time reg' p).1 := by
  rcases hll : p.last_liquidated with _ | t
  · simp only [Lib.check_position, hll]
    exact check_position_body_trace_indep oracle liquidate record_time reg reg' p
  · simp only [Lib.check_position, hll]
    by_cases hcool : now - t < config.liquidation_cooldown_secs
    · simp [hcool]
    · simp only [if_neg hcool]
      exact check_position_body_trace_indep oracle liquidate record_time reg reg' p

/-- The sweep produces, for each snapshot position, exactly the trace of its
own individual check: one position never affects the evaluation of another. -/
theorem check_positions_traces (config : Lib.LiquidationConfig)
    (oracle : String → Except LiquidationError ℚ)
    (liquidate : Position → ℚ → Except LiquidationError Unit)
    (now record_time : Int) :
    ∀ (snap : List Position) (reg : Lib.Registry),
      (Lib.check_positions config oracle liquidate now record_time reg snap).1
        = snap.map (fun q =>
            (Lib.check_position config oracle liquidate now record_time reg q).1) := by
  intro snap
  induction snap with
  | nil => intro reg; rfl
  | cons p rest ih =>
    intro reg
    simp only [Lib.check_positions, List.map]
    refine congrArg₂ List.cons rfl ?_
    rw [ih]
    exact List.map_congr_left fun q _ =>
      check_position_trace_indep config oracle liquidate now record_time _ reg q

/-- Claim C5: a position whose `last_liquidated` lies within the cooldown
window is skipped by `check_position` with no price fetch, no liquidation
attempt and no registry change; and the per-tick sweep evaluates every
snapshot position by its own individual check alone, so one position's
cooldown never prevents evaluation of another. -/
theorem c5_cooldown_skip (config : Lib.LiquidationConfig)
    (oracle : String → Except LiquidationError ℚ)
    (liquidate : Position → ℚ → Except LiquidationError Unit)
    (now record_time : Int) (reg : Lib.Registry) (p : Position) (t : Int)
    (hll : p.last_liquidated = some t)
    (hcool : now - t < config.liquidation_cooldown_secs) :
    Lib.check_position config oracle liquidate now record_time reg p
      = (⟨false, false, .ok ()⟩, reg)
    ∧ ∀ (reg0 : Lib.Registry) (snap : List Position),
        (Lib.check_positions config oracle liquidate now record_time reg0 snap).1
          = snap.map (fun q =>
              (Lib.check_position config oracle liquidate now record_time reg0 q).1) := by
  constructor
  · simp [Lib.check_position, hll, hcool]
  · intro reg0 snap
    exact check_positions_traces config oracle liquidate now record_time snap reg0

/-- Witness for C5: the position liquidated at time 100, checked at time 120
against a 60-second cooldown. -/
theorem c5_witness :
    (positionCooled.last_liquidated = some 100
      ∧ (120 : Int) - 100 < configLibW.liquidation_cooldown_secs)
    ∧ (Lib.check_position configLibW oracleW50 liquidateFailW 120 120 [] positionCooled
        = (⟨false, false, .ok ()⟩, [])
       ∧ ∀ (reg0 : Lib.Registry) (snap : List Position),
          (Lib.check_positions configLibW oracleW50 liquidateFailW 120 120 reg0 snap).1
            = snap.map (fun q =>
                (Lib.check_position configLibW oracleW50 liquidateFailW 120 120 reg0 q).1)) :=
  ⟨⟨rfl, by norm_num [configLibW]⟩,
    c5_cooldown_skip configLibW oracleW50 liquidateFailW 120 120 [] positionCooled
      100 rfl (by norm_num [configLibW])⟩

/-- Claim C6: when the cooldown gate passes, the oracle delivers a price, the
position is flagged, and the liquidation call fails, `check_position`
propagates the error and leaves the registry untouched (so `last_liquidated`
is unchanged and the position stays monitored); and with that oracle and
failing liquidator the registry can never change — it changes only after a
liquidation that reports success. -/
theorem c6_failed_liquidation_keeps_registry (config : Lib.LiquidationConfig)
    (oracle : String → Except LiquidationError ℚ)
    (liquidate : Position → ℚ → Except LiquidationError Unit)
    (now record_time : Int) (reg : Lib.Registry) (p : Position) (price : ℚ)
    (e : LiquidationError)
    (hg : Lib.in_cooldown config now p = false)
    (ho : oracle p.symbol = .ok price)
    (hl : p.is_liquidatable price = true)
    (hf : liquidate p price = .error e) :
    Lib.check_position config oracle liquidate now record_time reg p
      = (⟨true, true, .error e⟩, reg)
    ∧ ∀ (liq2 : Position → ℚ → Except LiquidationError Unit)
        (reg0 : Lib.Registry),
        (Lib.check_position config oracle liq2 now record_time reg0 p).2 ≠ reg0 →
        (Lib.check_position config oracle liq2 now record_time reg0 p).1.attempted
            = true
        ∧ (Lib.check_position config oracle liq2 now record_time reg0 p).1.result
            = .ok () := by
  have hbody : ∀ (liq2 : Position → ℚ → Except LiquidationError Unit)
      (reg0 : Lib.Registry),
      Lib.check_position config oracle liq2 now record_time reg0 p
        = Lib.check_position_body oracle liq2 record_time reg0 p := by
    intro liq2 reg0
    rcases hll : p.last_liquidated with _ | t
    · simp [Lib.check_position, hll]
    · have hcool : ¬ now - t < config.liquidation_cooldown_secs := by
        simpa [Lib.in_cooldown, hll] using hg
      simp [Lib.check_position, hll, hcool]
  constructor
  · rw [hbody]
    simp [Lib.check_position_body, ho, hl, hf]
  · intro liq2 reg0 hne
    rw [hbody] at hne ⊢
    cases hliq : liq2 p price with
    | error e2 =>
      exact absurd (by simp [Lib.check_position_body, ho, hl, hliq]) hne
    | ok u =>
      constructor <;> simp [Lib.check_position_body, ho, hl, hliq]

/-- Witness for C6: the under-collateralized position with a timing-out
liquidation call at price 50000. -/
theorem c6_witness :
    (Lib.in_cooldown configLibW 120 positionUnder = false
      ∧ oracleW50 positionUnder.symbol = .ok 50000
      ∧ positionUnder.is_liquidatable 50000 = true
      ∧ liquidateFailW positionUnder 50000 = .error .ConfirmationTimeout)
    ∧ (Lib.check_position configLibW oracleW50 liquidateFailW 120 120 [] positionUnder
        = (⟨true, true, .error .ConfirmationTimeout⟩, [])
       ∧ ∀ (liq2 : Position → ℚ → Except LiquidationError Unit)
          (reg0 : Lib.Registry),
          (Lib.check_position configLibW oracleW50 liq2 120 120 reg0 positionUnder).2
              ≠ reg0 →
          (Lib.check_position configLibW oracleW50 liq2 120 120 reg0
              positionUnder).1.attempted = true
          ∧ (Lib.check_position configLibW oracleW50 liq2 120 120 reg0
              positionUnder).1.result = .ok ()) :=
  ⟨⟨rfl, rfl,
    by
      norm_num [positionUnder, Position.is_liquidatable, Position.margin_ratio,
        Position.value, Position.unrealized_pnl,
        Position.calculate_maintenance_margin],
    rfl⟩,
    c6_failed_liquidation_keeps_registry configLibW oracleW50 liquidateFailW
      120 120 [] positionUnder 50000 .ConfirmationTimeout rfl rfl
      (by
        norm_num [positionUnder, Position.is_liquidatable, Position.margin_ratio,
          Position.value, Position.unrealized_pnl,
          Position.calculate_maintenance_margin])
      rfl⟩

/-- Claim C7 is not what the code does: with the default configuration
(`dry_run = true`) and the under-collateralized position `positionUnder` at
the vetted price 50000, the liquidation.rs `liquidate_position` returns the
plain success `.ok ()` — it never synthesizes a `LiquidationResult.Skipped`
with reason dry_run, and its result ignores the configuration entirely. -/
theorem c7_dry_run_ignored :
    Types.LiquidationConfig.default.dry_run = true
    ∧ positionUnder.is_undercollateralized 50000
        Types.LiquidationConfig.default.maintenance_margin = true
    ∧ Liq.liquidate_position Types.LiquidationConfig.default positionUnder 50000
        = .ok ()
    ∧ ∀ (config : Types.LiquidationConfig) (p : Position) (price : ℚ),
        Liq.liquidate_position config p price = .ok () := by
  refine ⟨rfl, ?_, rfl, fun _ _ _ => rfl⟩
  norm_num [positionUnder, Position.is_undercollateralized, Position.margin_ratio,
    Position.value, Position.unrealized_pnl,
    Position.calculate_maintenance_margin, Types.LiquidationConfig.default]

/-- Claim C8 is not what the code does: although the default configuration
asks for 3 retries with a 1000 ms delay, both engines' `liquidate_position`
bodies return `.ok ()` unconditionally and identically for every
configuration — there is no submission, no retry loop, no price re-validation
and no terminal `LiquidationResult.Failure` carrying an attempt count. -/
theorem c8_retries_not_implemented :
    Types.LiquidationConfig.default.max_retries = 3
    ∧ Types.LiquidationConfig.default.retry_delay_ms = 1000
    ∧ (∀ (c c' : Types.LiquidationConfig) (p : Position) (price : ℚ),
        Liq.liquidate_position c p price = Liq.liquidate_position c' p price)
    ∧ (∀ (c : Types.LiquidationConfig) (p : Position) (price : ℚ),
        Liq.liquidate_position c p price = .ok ())
    ∧ (∀ (p : Position) (price : ℚ), Lib.liquidate_position p price = .ok ()) :=
  ⟨rfl, rfl, fun _ _ _ _ => rfl, fun _ _ _ => rfl, fun _ _ => rfl⟩

end LiquidationSpec
